import Mathlib

/-!
Shallow embedding of the order-validation and normalization library
(`src/Pytest Framework/src/elt_functions.py`, `data_quality.py`,
`data_transformations.py`, `data_validation_functions.py`).

Python strings are embedded as lists of code points (`PyStr := List Nat`);
the ASCII fragment of `str.strip`, `str.title`, `str.lower`, `str.isdigit`
is modelled character by character.  Python numbers are embedded as
rationals, `None`-able parameters as `Option`, Python `raise` as
`Except.error`, and `round(x, 2)` as round-half-to-even at two decimals
on rationals.  Python dicts appearing in the data-quality functions are
embedded as association lists looked up by first match (dict literals in
this code base have distinct keys).
-/

/-- A Python string, as its list of code points. -/
abbrev PyStr : Type := List Nat

/-- Code points of a Lean string literal, for writing concrete `PyStr` values. -/
def pyStr (s : String) : PyStr := s.data.map Char.toNat

/-- Embedding of Python `str.isspace` on the ASCII whitespace characters,
the ones `str.strip` removes in this code base. -/
def isSpaceN (c : Nat) : Bool :=
  decide (c = 32 ∨ c = 9 ∨ c = 10 ∨ c = 11 ∨ c = 12 ∨ c = 13)

/-- Embedding of Python `str.isalpha` (equivalently, cased characters) on ASCII. -/
def isAlphaN (c : Nat) : Bool :=
  decide ((65 ≤ c ∧ c ≤ 90) ∨ (97 ≤ c ∧ c ≤ 122))

/-- Embedding of Python `str.isdigit` on ASCII decimal digits. -/
def isDigitN (c : Nat) : Bool :=
  decide (48 ≤ c ∧ c ≤ 57)

/-- ASCII lower-casing of one code point, as in `str.lower`. -/
def toLowerA (c : Nat) : Nat :=
  if 65 ≤ c ∧ c ≤ 90 then c + 32 else c

/-- ASCII upper-casing of one code point, as in `str.upper`. -/
def toUpperA (c : Nat) : Nat :=
  if 97 ≤ c ∧ c ≤ 122 then c - 32 else c

/-- One character of `str.title`: a cased character is lower-cased when the
previous character was cased and upper-cased otherwise; other characters
pass through. -/
def titleMap (prevCased : Bool) (c : Nat) : Nat :=
  if isAlphaN c then (if prevCased then toLowerA c else toUpperA c) else c

/-- The character loop of Python `str.title`, carrying whether the previous
character was cased. -/
def pyTitleGo (prevCased : Bool) : List Nat → List Nat
  | [] => []
  | c :: cs => titleMap prevCased c :: pyTitleGo (isAlphaN c) cs

/-- Embedding of Python `str.title`. -/
def pyTitle (s : PyStr) : PyStr := pyTitleGo false s

/-- Embedding of Python `str.lower` (ASCII fragment). -/
def pyLower (s : PyStr) : PyStr := List.map toLowerA s

/-- Left part of Python `str.strip`: drop leading whitespace. -/
def ltrim (s : PyStr) : PyStr := List.dropWhile isSpaceN s

/-- Right part of Python `str.strip`: drop trailing whitespace. -/
def rtrim (s : PyStr) : PyStr := List.rdropWhile isSpaceN s

/-- Embedding of Python `str.strip` with no argument. -/
def pyStrip (s : PyStr) : PyStr := rtrim (ltrim s)

/-- Round a rational to the nearest integer, ties to even: the behaviour of
Python 3 `round` at spec level. -/
def roundHalfEven (q : ℚ) : ℤ :=
  if q - ⌊q⌋ < 1 / 2 then ⌊q⌋
  else if 1 / 2 < q - ⌊q⌋ then ⌊q⌋ + 1
  else if ⌊q⌋ % 2 = 0 then ⌊q⌋ else ⌊q⌋ + 1

/-- Embedding of Python `round(x, 2)`. -/
def pythonRound2 (q : ℚ) : ℚ := (roundHalfEven (q * 100) : ℚ) / 100

/-- Does the string start with `ORD-` (code points 79, 82, 68, 45)?
Embedding of `order_id.startswith("ORD-")`. -/
def startsWithORD : PyStr → Bool
  | 79 :: 82 :: 68 :: 45 :: _ => true
  | _ => false

/-- Modelled from the spec: the `ORD-YYYY-NNN` shape that the docstring of
`check_order_id` documents but the implementation does not verify: the
literal prefix `ORD-`, four decimal digits, a dash, three decimal digits. -/
def matchesOrdShape : PyStr → Bool
  | 79 :: 82 :: 68 :: 45 :: y1 :: y2 :: y3 :: y4 :: 45 :: n1 :: n2 :: n3 :: [] =>
      isDigitN y1 && isDigitN y2 && isDigitN y3 && isDigitN y4 &&
      isDigitN n1 && isDigitN n2 && isDigitN n3
  | _ => false

/-- Embedding of `check_order_id` from `elt_functions.py`. -/
def check_order_id (order_id : PyStr) : Bool × String :=
  if order_id = [] then (false, "Order ID is empty")
  else if !startsWithORD order_id then (false, "Order ID must start with ORD-")
  else (true, "Valid")

/-- Embedding of `check_email` from `elt_functions.py`; 64 and 46 are the
code points of the at sign and the dot. -/
def check_email (email : PyStr) : Bool × String :=
  if email = [] then (false, "Email is empty")
  else if 64 ∉ email ∨ 46 ∉ email then (false, "Email must have @ and .")
  else (true, "Valid")

/-- Embedding of `check_quantity` from `elt_functions.py`. -/
def check_quantity (quantity : Option ℚ) (max_allowed : ℚ) : Bool × String :=
  match quantity with
  | Option.none => (false, "Quantity is missing")
  | Option.some q =>
    if q ≤ 0 then (false, "Quantity must be positive")
    else if q > max_allowed then
      (false, "Quantity too high (max: " ++ toString max_allowed ++ ")")
    else (true, "Valid")

/-- Embedding of `check_price` from `elt_functions.py`. -/
def check_price (price : Option ℚ) (min_price max_price : ℚ) : Bool × String :=
  match price with
  | Option.none => (false, "Price is missing")
  | Option.some p =>
    if p < min_price then (false, "Price too low (min: $" ++ toString min_price ++ ")")
    else if p > max_price then (false, "Price too high (max: $" ++ toString max_price ++ ")")
    else (true, "Valid")

/-- Embedding of `check_age` from `elt_functions.py`. -/
def check_age (age : Option ℚ) (min_age max_age : ℚ) : Bool × String :=
  match age with
  | Option.none => (false, "Age is missing")
  | Option.some a =>
    if a < min_age then (false, "Customer too young (min: " ++ toString min_age ++ ")")
    else if a > max_age then (false, "Age unrealistic (max: " ++ toString max_age ++ ")")
    else (true, "Valid")

/-- Embedding of `clean_name` from `elt_functions.py`: `None` and the empty
string map to the empty string, anything else to `name.strip().title()`. -/
def clean_name : Option PyStr → PyStr
  | Option.none => []
  | Option.some s => if s = [] then [] else pyTitle (pyStrip s)

/-- Embedding of `clean_email` from `elt_functions.py`: `None` and the empty
string map to the empty string, anything else to `email.strip().lower()`. -/
def clean_email : Option PyStr → PyStr
  | Option.none => []
  | Option.some s => if s = [] then [] else pyLower (pyStrip s)

/-- Embedding of `clean_product_name` from `elt_functions.py`, the same
transform as `clean_name`. -/
def clean_product_name : Option PyStr → PyStr
  | Option.none => []
  | Option.some s => if s = [] then [] else pyTitle (pyStrip s)

/-- Embedding of `calculate_total` from `elt_functions.py`. -/
def calculate_total (quantity price : Option ℚ) : ℚ :=
  match quantity, price with
  | Option.some q, Option.some p => pythonRound2 (q * p)
  | _, _ => 0

/-- Embedding of `calculate_tax` from `elt_functions.py`. -/
def calculate_tax (total_amount : ℚ) : ℚ :=
  pythonRound2 (total_amount * (1 / 10))

/-- Embedding of `get_order_category` from `elt_functions.py`. -/
def get_order_category (total_amount : ℚ) : String :=
  if total_amount ≥ 1000 then "HIGH"
  else if total_amount ≥ 500 then "MEDIUM"
  else if total_amount > 0 then "LOW"
  else "INVALID"

/-- Embedding of `convert_currency` from `data_transformations.py`: the one
function of the library that raises (`ValueError` on a non-positive rate). -/
def convert_currency (amount rate : ℚ) : Except String ℚ :=
  if rate ≤ 0 then Except.error "Exchange rate must be positive"
  else Except.ok (pythonRound2 (amount * rate))

/-- Embedding of `clean_phone_number` from `data_validation_functions.py`:
keep exactly the decimal-digit characters. -/
def clean_phone_number (phone : PyStr) : PyStr :=
  List.filter isDigitN phone

/-- The Python runtime types that appear as expected types in
`validate_data_types` calls of this code base. -/
inductive PyType : Type
  | int
  | float
  | str
  | bool
  | noneType
  | list
deriving DecidableEq

/-- A Python value, as far as the data-quality functions observe one:
its runtime type and the part of it that truthiness inspects. -/
inductive PyVal : Type
  | int (n : ℤ)
  | float (q : ℚ)
  | str (s : PyStr)
  | bool (b : Bool)
  | none
  | list (l : List PyVal)

/-- Python `type(v)` restricted to the embedded values. -/
def pyTypeOf : PyVal → PyType
  | PyVal.int _ => PyType.int
  | PyVal.float _ => PyType.float
  | PyVal.str _ => PyType.str
  | PyVal.bool _ => PyType.bool
  | PyVal.none => PyType.noneType
  | PyVal.list _ => PyType.list

/-- Python `type(v).__name__` and `t.__name__` for the embedded types. -/
def typeName : PyType → String
  | PyType.int => "int"
  | PyType.float => "float"
  | PyType.str => "str"
  | PyType.bool => "bool"
  | PyType.noneType => "NoneType"
  | PyType.list => "list"

/-- Python truthiness (`bool(v)`) of an embedded value. -/
def pyTruthy : PyVal → Bool
  | PyVal.int n => decide (n ≠ 0)
  | PyVal.float q => decide (q ≠ 0)
  | PyVal.str s => !s.isEmpty
  | PyVal.bool b => b
  | PyVal.none => false
  | PyVal.list l => !l.isEmpty

/-- Python `isinstance(v, t)` on the embedded types; `bool` is a subclass
of `int` in Python, the one subtyping this surface can observe. -/
def pyIsInstance (v : PyVal) (t : PyType) : Bool :=
  decide (pyTypeOf v = t ∨ (pyTypeOf v = PyType.bool ∧ t = PyType.int))

/-- Lookup by key in an association list: the embedding of `d[k]` together
with `k in d` for the dicts of this code base (distinct keys). -/
def lookupKey {α : Type} (d : List (String × α)) (f : String) : Option α :=
  match d with
  | [] => Option.none
  | (k, v) :: rest => if k = f then Option.some v else lookupKey rest f

/-- The loop of `check_data_completeness` from `data_quality.py`: collect,
in the order of `required_fields`, the fields that are absent from the
dict or have a falsy value. -/
def missingFields (data_dict : List (String × PyVal)) : List String → List String
  | [] => []
  | f :: rest =>
    match lookupKey data_dict f with
    | Option.none => f :: missingFields data_dict rest
    | Option.some v =>
      if pyTruthy v then missingFields data_dict rest else f :: missingFields data_dict rest

/-- Embedding of `check_data_completeness` from `data_quality.py`. -/
def check_data_completeness (data_dict : List (String × PyVal))
    (required_fields : List String) : Bool × List String :=
  let missing := missingFields data_dict required_fields
  (missing.length == 0, missing)

/-- The error string `validate_data_types` builds for one mismatched field. -/
def typeErrMsg (f : String) (t : PyType) (v : PyVal) : String :=
  f ++ ": expected " ++ typeName t ++ ", got " ++ typeName (pyTypeOf v)

/-- The loop of `validate_data_types` from `data_quality.py`: fields absent
from the dict are skipped, values of the wrong type contribute one error
string each, in the order of the type mapping. -/
def typeErrors (data_dict : List (String × PyVal)) :
    List (String × PyType) → List String
  | [] => []
  | (f, t) :: rest =>
    match lookupKey data_dict f with
    | Option.none => typeErrors data_dict rest
    | Option.some v =>
      if pyIsInstance v t then typeErrors data_dict rest
      else typeErrMsg f t v :: typeErrors data_dict rest

/-- Embedding of `validate_data_types` from `data_quality.py`. -/
def validate_data_types (data_dict : List (String × PyVal))
    (field_types : List (String × PyType)) : Bool × List String :=
  let errs := typeErrors data_dict field_types
  (errs.length == 0, errs)

/-! ### Character-level lemmas -/

theorem isAlphaN_toLowerA (c : Nat) : isAlphaN (toLowerA c) = isAlphaN c := by
  unfold toLowerA isAlphaN
  split_ifs with h
  all_goals simp only [decide_eq_decide]
  all_goals omega

theorem isAlphaN_toUpperA (c : Nat) : isAlphaN (toUpperA c) = isAlphaN c := by
  unfold toUpperA isAlphaN
  split_ifs with h
  all_goals simp only [decide_eq_decide]
  all_goals omega

theorem isSpaceN_toLowerA (c : Nat) : isSpaceN (toLowerA c) = isSpaceN c := by
  unfold toLowerA isSpaceN
  split_ifs with h
  all_goals simp only [decide_eq_decide]
  all_goals omega

theorem isSpaceN_toUpperA (c : Nat) : isSpaceN (toUpperA c) = isSpaceN c := by
  unfold toUpperA isSpaceN
  split_ifs with h
  all_goals simp only [decide_eq_decide]
  all_goals omega

theorem toLowerA_toLowerA (c : Nat) : toLowerA (toLowerA c) = toLowerA c := by
  unfold toLowerA
  split_ifs <;> omega

theorem toUpperA_toUpperA (c : Nat) : toUpperA (toUpperA c) = toUpperA c := by
  unfold toUpperA
  split_ifs <;> omega

theorem isAlphaN_titleMap (b : Bool) (c : Nat) : isAlphaN (titleMap b c) = isAlphaN c := by
  unfold titleMap
  by_cases h : isAlphaN c = true
  · cases b <;> simp [h, isAlphaN_toLowerA, isAlphaN_toUpperA]
  · simp [h]

theorem isSpaceN_titleMap (b : Bool) (c : Nat) : isSpaceN (titleMap b c) = isSpaceN c := by
  unfold titleMap
  by_cases h : isAlphaN c = true
  · cases b <;> simp [h, isSpaceN_toLowerA, isSpaceN_toUpperA]
  · simp [h]

theorem titleMap_titleMap (b : Bool) (c : Nat) : titleMap b (titleMap b c) = titleMap b c := by
  by_cases h : isAlphaN c = true
  · cases b <;>
      simp [titleMap, h, isAlphaN_toLowerA, isAlphaN_toUpperA, toLowerA_toLowerA,
        toUpperA_toUpperA]
  · simp [titleMap, h]

/-! ### The title and lower transforms preserve length and end-character status -/

theorem pyTitleGo_nil (b : Bool) : pyTitleGo b [] = [] := rfl

theorem pyTitleGo_cons (b : Bool) (c : Nat) (cs : List Nat) :
    pyTitleGo b (c :: cs) = titleMap b c :: pyTitleGo (isAlphaN c) cs := rfl

theorem pyTitleGo_idem (l : List Nat) : ∀ b, pyTitleGo b (pyTitleGo b l) = pyTitleGo b l := by
  induction l with
  | nil => intro b; rfl
  | cons c cs ih =>
    intro b
    rw [pyTitleGo_cons, pyTitleGo_cons, titleMap_titleMap, isAlphaN_titleMap, ih]

theorem head?_pyTitleGo_space (b : Bool) (l : List Nat) :
    Option.map isSpaceN (pyTitleGo b l).head? = Option.map isSpaceN l.head? := by
  cases l with
  | nil => rfl
  | cons c cs => simp [pyTitleGo_cons, isSpaceN_titleMap]

theorem getLast?_pyTitleGo_space (l : List Nat) : ∀ b,
    Option.map isSpaceN (pyTitleGo b l).getLast? = Option.map isSpaceN l.getLast? := by
  induction l with
  | nil => intro b; rfl
  | cons c cs ih =>
    intro b
    cases cs with
    | nil => simp [pyTitleGo_cons, pyTitleGo_nil, isSpaceN_titleMap]
    | cons d ds =>
      rw [pyTitleGo_cons, pyTitleGo_cons, List.getLast?_cons_cons, List.getLast?_cons_cons,
        ← pyTitleGo_cons, ih]

theorem head?_pyLower_space (l : List Nat) :
    Option.map isSpaceN (pyLower l).head? = Option.map isSpaceN l.head? := by
  cases l with
  | nil => rfl
  | cons c cs => simp [pyLower, isSpaceN_toLowerA]

theorem getLast?_pyLower_space (l : List Nat) :
    Option.map isSpaceN (pyLower l).getLast? = Option.map isSpaceN l.getLast? := by
  rw [pyLower, List.getLast?_map]
  cases l.getLast? with
  | none => rfl
  | some c => simp [isSpaceN_toLowerA]

theorem pyLower_idem (l : List Nat) : pyLower (pyLower l) = pyLower l := by
  induction l with
  | nil => rfl
  | cons c cs ih =>
    simp only [pyLower, List.map_cons, List.map_map] at ih ⊢
    rw [toLowerA_toLowerA]
    exact congrArg _ ih

/-! ### Fixed points of the two trims -/

theorem ltrim_eq_self_iff_head (l : PyStr) :
    ltrim l = l ↔ ∀ c, l.head? = some c → isSpaceN c = false := by
  rw [ltrim, List.dropWhile_eq_self_iff]
  cases l with
  | nil => simp
  | cons c cs => simp

theorem rtrim_eq_self_iff_last (l : PyStr) :
    rtrim l = l ↔ ∀ c, l.getLast? = some c → isSpaceN c = false := by
  rw [rtrim, List.rdropWhile_eq_self_iff]
  constructor
  · intro h c hc
    cases hl : decide (l = []) with
    | true =>
      simp only [decide_eq_true_eq] at hl
      subst hl
      cases hc
    | false =>
      simp only [decide_eq_false_iff_not] at hl
      rw [List.getLast?_eq_getLast l hl] at hc
      cases hc
      simpa using h hl
  · intro h hl
    simpa using h (l.getLast hl) (List.getLast?_eq_getLast l hl)

theorem rtrim_idem (l : PyStr) : rtrim (rtrim l) = rtrim l :=
  List.rdropWhile_idempotent isSpaceN l

theorem ltrim_idem (l : PyStr) : ltrim (ltrim l) = ltrim l :=
  List.dropWhile_idempotent isSpaceN l

theorem ltrim_of_rtrim_of_ltrimmed (l : PyStr) (h : ltrim l = l) :
    ltrim (rtrim l) = rtrim l := by
  rw [ltrim_eq_self_iff_head] at h ⊢
  intro c hc
  obtain ⟨t, ht⟩ := List.rdropWhile_prefix isSpaceN l
  rw [rtrim] at hc
  have hhead : l.head? = some c := by
    rw [← ht, List.head?_append, hc]
    rfl
  exact h c hhead

theorem pyStrip_fixed (s : PyStr) :
    ltrim (pyStrip s) = pyStrip s ∧ rtrim (pyStrip s) = pyStrip s := by
  constructor
  · exact ltrim_of_rtrim_of_ltrimmed (ltrim s) (ltrim_idem s)
  · exact rtrim_idem (ltrim s)

theorem pyStrip_eq_self (l : PyStr) (hl : ltrim l = l) (hr : rtrim l = l) :
    pyStrip l = l := by
  rw [pyStrip, hl, hr]

theorem pyStrip_idem (s : PyStr) : pyStrip (pyStrip s) = pyStrip s :=
  pyStrip_eq_self _ (pyStrip_fixed s).1 (pyStrip_fixed s).2

/-! ### Title and lower preserve being stripped -/

theorem ltrim_pyTitleGo_of_fixed (b : Bool) (l : PyStr) (h : ltrim l = l) :
    ltrim (pyTitleGo b l) = pyTitleGo b l := by
  rw [ltrim_eq_self_iff_head] at h ⊢
  intro c hc
  have hmap := head?_pyTitleGo_space b l
  rw [hc] at hmap
  cases hl : l.head? with
  | none => rw [hl] at hmap; cases hmap
  | some d =>
    rw [hl] at hmap
    simp only [Option.map_some', Option.some.injEq] at hmap
    rw [hmap]
    exact h d hl

theorem rtrim_pyTitleGo_of_fixed (b : Bool) (l : PyStr) (h : rtrim l = l) :
    rtrim (pyTitleGo b l) = pyTitleGo b l := by
  rw [rtrim_eq_self_iff_last] at h ⊢
  intro c hc
  have hmap := getLast?_pyTitleGo_space l b
  rw [hc] at hmap
  cases hl : l.getLast? with
  | none => rw [hl] at hmap; cases hmap
  | some d =>
    rw [hl] at hmap
    simp only [Option.map_some', Option.some.injEq] at hmap
    rw [hmap]
    exact h d hl

theorem ltrim_pyLower_of_fixed (l : PyStr) (h : ltrim l = l) :
    ltrim (pyLower l) = pyLower l := by
  rw [ltrim_eq_self_iff_head] at h ⊢
  intro c hc
  have hmap := head?_pyLower_space l
  rw [hc] at hmap
  cases hl : l.head? with
  | none => rw [hl] at hmap; cases hmap
  | some d =>
    rw [hl] at hmap
    simp only [Option.map_some', Option.some.injEq] at hmap
    rw [hmap]
    exact h d hl

theorem rtrim_pyLower_of_fixed (l : PyStr) (h : rtrim l = l) :
    rtrim (pyLower l) = pyLower l := by
  rw [rtrim_eq_self_iff_last] at h ⊢
  intro c hc
  have hmap := getLast?_pyLower_space l
  rw [hc] at hmap
  cases hl : l.getLast? with
  | none => rw [hl] at hmap; cases hmap
  | some d =>
    rw [hl] at hmap
    simp only [Option.map_some', Option.some.injEq] at hmap
    rw [hmap]
    exact h d hl

theorem pyStrip_pyTitle_pyStrip (s : PyStr) :
    pyStrip (pyTitle (pyStrip s)) = pyTitle (pyStrip s) :=
  pyStrip_eq_self _
    (ltrim_pyTitleGo_of_fixed false _ (pyStrip_fixed s).1)
    (rtrim_pyTitleGo_of_fixed false _ (pyStrip_fixed s).2)

theorem pyStrip_pyLower_pyStrip (s : PyStr) :
    pyStrip (pyLower (pyStrip s)) = pyLower (pyStrip s) :=
  pyStrip_eq_self _
    (ltrim_pyLower_of_fixed _ (pyStrip_fixed s).1)
    (rtrim_pyLower_of_fixed _ (pyStrip_fixed s).2)

/-! ### Idempotence of the three cleaners -/

theorem clean_name_idem_str (s : PyStr) :
    clean_name (Option.some (clean_name (Option.some s))) = clean_name (Option.some s) := by
  by_cases hs : s = []
  · simp [clean_name, hs]
  · simp only [clean_name, if_neg hs]
    by_cases hy : pyTitle (pyStrip s) = []
    · rw [if_pos hy, hy]
    · rw [if_neg hy, pyStrip_pyTitle_pyStrip]
      exact pyTitleGo_idem (pyStrip s) false

theorem clean_email_idem_str (s : PyStr) :
    clean_email (Option.some (clean_email (Option.some s))) = clean_email (Option.some s) := by
  by_cases hs : s = []
  · simp [clean_email, hs]
  · simp only [clean_email, if_neg hs]
    by_cases hy : pyLower (pyStrip s) = []
    · rw [if_pos hy, hy]
    · rw [if_neg hy, pyStrip_pyLower_pyStrip, pyLower_idem]

theorem clean_product_name_idem_str (s : PyStr) :
    clean_product_name (Option.some (clean_product_name (Option.some s)))
      = clean_product_name (Option.some s) := by
  by_cases hs : s = []
  · simp [clean_product_name, hs]
  · simp only [clean_product_name, if_neg hs]
    by_cases hy : pyTitle (pyStrip s) = []
    · rw [if_pos hy, hy]
    · rw [if_neg hy, pyStrip_pyTitle_pyStrip]
      exact pyTitleGo_idem (pyStrip s) false

/-! ### Whitespace-only strings strip to empty -/

theorem pyStrip_eq_nil_of_all_space (s : PyStr) (h : ∀ c ∈ s, isSpaceN c = true) :
    pyStrip s = [] := by
  have hl : ltrim s = [] := by
    rw [ltrim, List.dropWhile_eq_nil_iff]
    exact h
  rw [pyStrip, hl]
  rfl

/-! ### The completeness loop, as a filter of the required fields -/

theorem missingFields_eq_filter (d : List (String × PyVal)) (req : List String) :
    missingFields d req =
      req.filter (fun f => (lookupKey d f).elim true (fun v => !pyTruthy v)) := by
  induction req with
  | nil => rfl
  | cons f rest ih =>
    cases h : lookupKey d f with
    | none => simp [missingFields, h, ih, List.filter_cons]
    | some v =>
      by_cases htv : pyTruthy v = true
      · simp [missingFields, h, htv, ih, List.filter_cons]
      · simp [missingFields, h, htv, ih, List.filter_cons]

theorem missingFields_eq_nil_iff (d : List (String × PyVal)) (req : List String) :
    missingFields d req = [] ↔
      ∀ f ∈ req, ∃ v, lookupKey d f = Option.some v ∧ pyTruthy v = true := by
  induction req with
  | nil => simp [missingFields]
  | cons f rest ih =>
    cases h : lookupKey d f with
    | none =>
      simp only [missingFields, h]
      constructor
      · intro hx; cases hx
      · intro hx
        obtain ⟨v, hv, _⟩ := hx f (by simp)
        rw [h] at hv
        cases hv
    | some v =>
      by_cases htv : pyTruthy v = true
      · simp only [missingFields, h, htv, if_pos, ih]
        constructor
        · intro hx g hg
          rcases List.mem_cons.mp hg with hg | hg
          · exact ⟨v, by rw [hg]; exact ⟨h, htv⟩⟩
          · exact hx g hg
        · intro hx g hg
          exact hx g (List.mem_cons_of_mem f hg)
      · simp only [missingFields, h, htv, if_neg, if_false, Bool.false_eq_true]
        constructor
        · intro hx; cases hx
        · intro hx
          obtain ⟨w, hw, htw⟩ := hx f (by simp)
          rw [h] at hw
          cases hw
          exact absurd htw htv

/-! ### The type-check loop -/

theorem typeErrors_eq_nil_iff (d : List (String × PyVal)) (ft : List (String × PyType)) :
    typeErrors d ft = [] ↔
      ∀ p ∈ ft, ∀ v, lookupKey d p.1 = Option.some v → pyIsInstance v p.2 = true := by
  induction ft with
  | nil => simp [typeErrors]
  | cons p rest ih =>
    obtain ⟨f, t⟩ := p
    cases h : lookupKey d f with
    | none =>
      simp only [typeErrors, h, ih]
      constructor
      · intro hx q hq v hv
        rcases List.mem_cons.mp hq with hq | hq
        · rw [hq] at hv; simp at hv; rw [h] at hv; cases hv
        · exact hx q hq v hv
      · intro hx q hq
        exact hx q (List.mem_cons_of_mem _ hq)
    | some v =>
      by_cases hi : pyIsInstance v t = true
      · simp only [typeErrors, h, hi, if_pos, ih]
        constructor
        · intro hx q hq w hw
          rcases List.mem_cons.mp hq with hq | hq
          · rw [hq] at hw ⊢
            simp only at hw ⊢
            rw [h] at hw
            cases hw
            exact hi
          · exact hx q hq w hw
        · intro hx q hq
          exact hx q (List.mem_cons_of_mem _ hq)
      · simp only [typeErrors, h, hi, if_neg, if_false]
        constructor
        · intro hx; cases hx
        · intro hx
          have := hx (f, t) (by simp) v (by simpa using h)
          exact absurd this hi

/-! ### Claim theorems -/

/-- C1: `convert_currency(amount, rate)` raises exactly when the rate is not
strictly positive and otherwise returns `round(amount * rate, 2)`; every
other operation of the library (validators, cleaners, derivers) is total and
reports its outcome as a returned value, never as an exception. -/
theorem convert_currency_only_raiser :
    (∀ amount rate : ℚ,
        (∃ e, convert_currency amount rate = Except.error e) ↔ rate ≤ 0)
  ∧ (∀ amount rate : ℚ, rate ≤ 0 →
        convert_currency amount rate = Except.error "Exchange rate must be positive")
  ∧ (∀ amount rate : ℚ, 0 < rate →
        convert_currency amount rate = Except.ok (pythonRound2 (amount * rate)))
  ∧ (∀ oid, ∃ b m, check_order_id oid = (b, m))
  ∧ (∀ e, ∃ b m, check_email e = (b, m))
  ∧ (∀ q mx, ∃ b m, check_quantity q mx = (b, m))
  ∧ (∀ p mn mx, ∃ b m, check_price p mn mx = (b, m))
  ∧ (∀ a mn mx, ∃ b m, check_age a mn mx = (b, m))
  ∧ (∀ x, ∃ s, clean_name x = s)
  ∧ (∀ x, ∃ s, clean_email x = s)
  ∧ (∀ x, ∃ s, clean_product_name x = s)
  ∧ (∀ q p, ∃ t, calculate_total q p = t)
  ∧ (∀ t, ∃ u, calculate_tax t = u)
  ∧ (∀ t, ∃ c, get_order_category t = c) := by
  refine ⟨?_, ?_, ?_, fun oid => ⟨_, _, rfl⟩, fun e => ⟨_, _, rfl⟩,
    fun q mx => ⟨_, _, rfl⟩, fun p mn mx => ⟨_, _, rfl⟩, fun a mn mx => ⟨_, _, rfl⟩,
    fun x => ⟨_, rfl⟩, fun x => ⟨_, rfl⟩, fun x => ⟨_, rfl⟩,
    fun q p => ⟨_, rfl⟩, fun t => ⟨_, rfl⟩, fun t => ⟨_, rfl⟩⟩
  · intro amount rate
    constructor
    · rintro ⟨e, he⟩
      by_contra h
      push_neg at h
      rw [convert_currency, if_neg (not_le.mpr h)] at he
      cases he
    · intro h
      exact ⟨_, by rw [convert_currency, if_pos h]⟩
  · intro amount rate h
    rw [convert_currency, if_pos h]
  · intro amount rate h
    rw [convert_currency, if_neg (not_le.mpr h)]

/-- C2: `check_quantity`, `check_price` and `check_age` test absence first,
then the range bounds in order, returning on the first failing condition
with its single diagnostic message, and `(true, "Valid")` when every
condition passes. -/
theorem validators_first_failing_condition :
    (∀ mx : ℚ, check_quantity Option.none mx = (false, "Quantity is missing"))
  ∧ (∀ q mx : ℚ, q ≤ 0 →
      check_quantity (Option.some q) mx = (false, "Quantity must be positive"))
  ∧ (∀ q mx : ℚ, 0 < q → mx < q →
      check_quantity (Option.some q) mx =
        (false, "Quantity too high (max: " ++ toString mx ++ ")"))
  ∧ (∀ q mx : ℚ, 0 < q → q ≤ mx → check_quantity (Option.some q) mx = (true, "Valid"))
  ∧ (∀ mn mx : ℚ, check_price Option.none mn mx = (false, "Price is missing"))
  ∧ (∀ p mn mx : ℚ, p < mn →
      check_price (Option.some p) mn mx =
        (false, "Price too low (min: $" ++ toString mn ++ ")"))
  ∧ (∀ p mn mx : ℚ, mn ≤ p → mx < p →
      check_price (Option.some p) mn mx =
        (false, "Price too high (max: $" ++ toString mx ++ ")"))
  ∧ (∀ p mn mx : ℚ, mn ≤ p → p ≤ mx → check_price (Option.some p) mn mx = (true, "Valid"))
  ∧ (∀ mn mx : ℚ, check_age Option.none mn mx = (false, "Age is missing"))
  ∧ (∀ a mn mx : ℚ, a < mn →
      check_age (Option.some a) mn mx =
        (false, "Customer too young (min: " ++ toString mn ++ ")"))
  ∧ (∀ a mn mx : ℚ, mn ≤ a → mx < a →
      check_age (Option.some a) mn mx =
        (false, "Age unrealistic (max: " ++ toString mx ++ ")"))
  ∧ (∀ a mn mx : ℚ, mn ≤ a → a ≤ mx → check_age (Option.some a) mn mx = (true, "Valid")) := by
  refine ⟨fun mx => rfl, ?_, ?_, ?_, fun mn mx => rfl, ?_, ?_, ?_, fun mn mx => rfl,
    ?_, ?_, ?_⟩
  · intro q mx h
    rw [check_quantity, if_pos h]
  · intro q mx h1 h2
    rw [check_quantity, if_neg (not_le.mpr h1), if_pos h2]
  · intro q mx h1 h2
    rw [check_quantity, if_neg (not_le.mpr h1), if_neg (not_lt.mpr h2)]
  · intro p mn mx h
    rw [check_price, if_pos h]
  · intro p mn mx h1 h2
    rw [check_price, if_neg (not_lt.mpr h1), if_pos h2]
  · intro p mn mx h1 h2
    rw [check_price, if_neg (not_lt.mpr h1), if_neg (not_lt.mpr h2)]
  · intro a mn mx h
    rw [check_age, if_pos h]
  · intro a mn mx h1 h2
    rw [check_age, if_neg (not_lt.mpr h1), if_pos h2]
  · intro a mn mx h1 h2
    rw [check_age, if_neg (not_lt.mpr h1), if_neg (not_lt.mpr h2)]

/-- C3: the cleaning functions `clean_name`, `clean_email` and
`clean_product_name` are idempotent on every string input. -/
theorem cleaners_idempotent :
    (∀ s : PyStr,
        clean_name (Option.some (clean_name (Option.some s))) = clean_name (Option.some s))
  ∧ (∀ s : PyStr,
        clean_email (Option.some (clean_email (Option.some s))) = clean_email (Option.some s))
  ∧ (∀ s : PyStr,
        clean_product_name (Option.some (clean_product_name (Option.some s)))
          = clean_product_name (Option.some s)) :=
  ⟨clean_name_idem_str, clean_email_idem_str, clean_product_name_idem_str⟩

/-- C4: `check_order_id` rejects the empty string as empty, rejects any
non-empty string without the `ORD-` prefix with the prefix message, and
accepts every string with the `ORD-` prefix, including ones (such as
`ORD-XX`) that do not match the documented `ORD-YYYY-NNN` shape. -/
theorem check_order_id_prefix_only :
    check_order_id [] = (false, "Order ID is empty")
  ∧ check_order_id (pyStr "ORD-2025-001") = (true, "Valid")
  ∧ (∀ s : PyStr, s ≠ [] → startsWithORD s = false →
      check_order_id s = (false, "Order ID must start with ORD-"))
  ∧ (∀ s : PyStr, startsWithORD s = true → check_order_id s = (true, "Valid"))
  ∧ (startsWithORD (pyStr "ORD-XX") = true ∧ matchesOrdShape (pyStr "ORD-XX") = false
      ∧ check_order_id (pyStr "ORD-XX") = (true, "Valid")) := by
  refine ⟨rfl, by decide, ?_, ?_, by decide, by decide, by decide⟩
  · intro s hne hpre
    rw [check_order_id, if_neg hne, if_pos (by rw [hpre]; rfl)]
  · intro s hpre
    have hne : s ≠ [] := by
      intro h
      rw [h] at hpre
      cases hpre
    rw [check_order_id, if_neg hne, if_neg (by rw [hpre]; simp)]

/-- C5: `get_order_category` returns `HIGH` exactly on totals of at least
1000, `MEDIUM` exactly on [500, 1000), `LOW` exactly on (0, 500), and
`INVALID` exactly on totals that are zero or negative; in particular
1999.98 is `HIGH` and 0 is `INVALID`. -/
theorem get_order_category_thresholds :
    (∀ t : ℚ, (get_order_category t = "HIGH" ↔ 1000 ≤ t))
  ∧ (∀ t : ℚ, (get_order_category t = "MEDIUM" ↔ 500 ≤ t ∧ t < 1000))
  ∧ (∀ t : ℚ, (get_order_category t = "LOW" ↔ 0 < t ∧ t < 500))
  ∧ (∀ t : ℚ, (get_order_category t = "INVALID" ↔ t ≤ 0))
  ∧ get_order_category 1999.98 = "HIGH"
  ∧ get_order_category 0 = "INVALID" := by
  refine ⟨?_, ?_, ?_, ?_, ?_, ?_⟩
  · intro t
    rw [get_order_category]
    split_ifs with h1 h2 h3
    · exact iff_of_true rfl h1
    · exact iff_of_false (by decide) h1
    · exact iff_of_false (by decide) h1
    · exact iff_of_false (by decide) h1
  · intro t
    rw [get_order_category]
    split_ifs with h1 h2 h3
    · exact iff_of_false (by decide) (by intro hc; exact absurd h1 (by linarith [hc.2]))
    · exact iff_of_true rfl ⟨h2, not_le.mp h1⟩
    · exact iff_of_false (by decide) (by intro hc; exact h2 hc.1)
    · exact iff_of_false (by decide) (by intro hc; exact h2 hc.1)
  · intro t
    rw [get_order_category]
    split_ifs with h1 h2 h3
    · exact iff_of_false (by decide) (by intro hc; linarith [hc.2])
    · exact iff_of_false (by decide) (by intro hc; linarith [hc.2, h2])
    · exact iff_of_true rfl ⟨h3, not_le.mp h2⟩
    · exact iff_of_false (by decide) (by intro hc; exact h3 hc.1)
  · intro t
    rw [get_order_category]
    split_ifs with h1 h2 h3
    · exact iff_of_false (by decide) (by intro hc; linarith)
    · exact iff_of_false (by decide) (by intro hc; linarith)
    · exact iff_of_false (by decide) (by intro hc; linarith)
    · exact iff_of_true rfl (not_lt.mp h3)
  · rw [get_order_category, if_pos (by norm_num)]
  · rw [get_order_category, if_neg (by norm_num), if_neg (by norm_num),
      if_neg (by norm_num)]

/-- C6: `calculate_total` returns 0 when either input is absent and
`round(quantity * price, 2)` otherwise; in particular it maps (2, 999.99)
to 1999.98 and (absent, 100) to 0. -/
theorem calculate_total_spec :
    (∀ q p : ℚ, calculate_total (Option.some q) (Option.some p) = pythonRound2 (q * p))
  ∧ (∀ p, calculate_total Option.none p = 0)
  ∧ (∀ q, calculate_total q Option.none = 0)
  ∧ calculate_total (Option.some 2) (Option.some 999.99) = 1999.98
  ∧ calculate_total Option.none (Option.some 100) = 0 := by
  refine ⟨fun q p => rfl, ?_, ?_, ?_, rfl⟩
  · intro p
    cases p <;> rfl
  · intro q
    cases q <;> rfl
  · have h : (2 : ℚ) * 999.99 * 100 = 199998 := by norm_num
    show pythonRound2 ((2 : ℚ) * 999.99) = 1999.98
    unfold pythonRound2 roundHalfEven
    rw [h]
    norm_num

/-- C7: `check_data_completeness` succeeds exactly when every required field
is present with a truthy value; a field is reported missing when absent or
falsy, and the missing list follows the order of `required_fields`; on the
record with an empty email it reports exactly `["email"]`. -/
theorem check_data_completeness_spec :
    (∀ d req, ((check_data_completeness d req).1 = true ↔
        ∀ f ∈ req, ∃ v, lookupKey d f = Option.some v ∧ pyTruthy v = true))
  ∧ (∀ d req, ((check_data_completeness d req).1 = true ↔
        (check_data_completeness d req).2 = []))
  ∧ (∀ d req, (check_data_completeness d req).2 =
      req.filter (fun f => (lookupKey d f).elim true (fun v => !pyTruthy v)))
  ∧ check_data_completeness
      [("name", PyVal.str (pyStr "John")), ("email", PyVal.str []), ("age", PyVal.int 30)]
      ["name", "email", "age"] = (false, ["email"]) := by
  refine ⟨?_, ?_, ?_, by decide⟩
  · intro d req
    simp only [check_data_completeness, beq_iff_eq, List.length_eq_zero]
    exact missingFields_eq_nil_iff d req
  · intro d req
    simp only [check_data_completeness, beq_iff_eq, List.length_eq_zero]
  · intro d req
    exact missingFields_eq_filter d req

/-- C8: `validate_data_types` checks only fields present in both the record
and the type mapping, silently skipping absent fields; it succeeds exactly
when every checked value has its expected type, and on a string-valued age
checked against `int` it reports the descriptive error for `age`. -/
theorem validate_data_types_spec :
    (∀ d ft, ((validate_data_types d ft).1 = true ↔
        ∀ p ∈ ft, ∀ v, lookupKey d p.1 = Option.some v → pyIsInstance v p.2 = true))
  ∧ (∀ d f t ft, lookupKey d f = Option.none →
        validate_data_types d ((f, t) :: ft) = validate_data_types d ft)
  ∧ validate_data_types [("age", PyVal.str (pyStr "thirty"))] [("age", PyType.int)]
      = (false, ["age: expected int, got str"]) := by
  refine ⟨?_, ?_, by decide⟩
  · intro d ft
    simp only [validate_data_types, beq_iff_eq, List.length_eq_zero]
    exact typeErrors_eq_nil_iff d ft
  · intro d f t ft h
    simp only [validate_data_types, typeErrors, h]

/-- C9: on absent input, the empty string and every whitespace-only string,
`clean_name`, `clean_email` and `clean_product_name` all return the empty
string. -/
theorem cleaners_whitespace_only_to_empty :
    (∀ s : PyStr, (∀ c ∈ s, isSpaceN c = true) →
        clean_name (Option.some s) = [] ∧ clean_email (Option.some s) = []
          ∧ clean_product_name (Option.some s) = [])
  ∧ clean_name Option.none = []
  ∧ clean_email Option.none = []
  ∧ clean_product_name Option.none = [] := by
  refine ⟨?_, rfl, rfl, rfl⟩
  intro s hs
  have hstrip := pyStrip_eq_nil_of_all_space s hs
  by_cases hnil : s = []
  · subst hnil
    exact ⟨rfl, rfl, rfl⟩
  · refine ⟨?_, ?_, ?_⟩
    · simp only [clean_name, if_neg hnil, hstrip]
      rfl
    · simp only [clean_email, if_neg hnil, hstrip]
      rfl
    · simp only [clean_product_name, if_neg hnil, hstrip]
      rfl

/-- C10: `clean_phone_number` keeps exactly the decimal-digit characters of
its input in order: its output is a subsequence of the input containing
precisely the digit characters, and the function is idempotent. -/
theorem clean_phone_number_digit_subsequence :
    (∀ s : PyStr, List.Sublist (clean_phone_number s) s)
  ∧ (∀ s : PyStr, ∀ c, c ∈ clean_phone_number s ↔ c ∈ s ∧ isDigitN c = true)
  ∧ (∀ s : PyStr, clean_phone_number (clean_phone_number s) = clean_phone_number s) := by
  refine ⟨?_, ?_, ?_⟩
  · intro s
    exact List.filter_sublist s
  · intro s c
    simp [clean_phone_number, List.mem_filter]
  · intro s
    simp [clean_phone_number, List.filter_filter]
